import Mathlib

/-!
# The multi-committee orchestrator of `consensus/tbft/node.go`

A shallow embedding of `service` (per-committee peer table, dispatcher and
switch) and `Node` (the map committee id → service) together with the
properties of `PutCommittee`, `PutNodes`, `Notify`, `SetCommitteeStop`,
`MakeValidators`, `service.putNodes` and `service.updateNodes`.

Conventions of the embedding.

* A Go `map[K]V` is an association list with first-match lookup; assignment
  to a key replaces the binding in place or appends a new one.  Go leaves the
  iteration order of a map unspecified; the list order is one such order.
* A pointer the code compares with `nil` or that one of the two constructors
  leaves unset is an `Option`; `none` is `nil`.
* `*big.Int` values are `Int`; `Uint64()` keeps the low 64 bits of the
  magnitude.  `uint64` values are `Nat` with explicit reduction mod `2^64`.
* A call ends in one of three ways: it returns (with a Go `error` value that
  may be `nil`), it panics on a nil dereference, or it blocks forever on an
  unbuffered channel nobody receives from.
* Goroutines are counted, not scheduled: `workers` is the number of dispatcher
  loops spawned by `start` and still alive, `signals` the number of detached
  `updateChan <- true` senders raised by `putNodes`.
-/

namespace Tbft

/-! ## Go maps -/

/-- Lookup `m[k]`: the value of the first binding of `k`, `none` when absent. -/
def mapGet {κ ν : Type} [DecidableEq κ] : List (κ × ν) → κ → Option ν
  | [], _ => none
  | (k', v) :: rest, k => if k' = k then some v else mapGet rest k

/-- Assignment `m[k] = v`: overwrite the binding of `k`, or add one. -/
def mapSet {κ ν : Type} [DecidableEq κ] : List (κ × ν) → κ → ν → List (κ × ν)
  | [], k, v => [(k, v)]
  | (k', v') :: rest, k, v =>
    if k' = k then (k', v) :: rest else (k', v') :: mapSet rest k v

/-- The keys of a map, in list order. -/
def mapKeys {κ ν : Type} (m : List (κ × ν)) : List κ := m.map Prod.fst

/-! ## Integers -/

/-- The method `(*big.Int).Uint64`: the low 64 bits of the magnitude. -/
def bigUint64 (x : Int) : Nat := x.natAbs % 2 ^ 64

/-- The statement `x--` on a `uint64`. -/
def uint64Dec (x : Nat) : Nat := (x + (2 ^ 64 - 1)) % 2 ^ 64

/-! ## Errors and outcomes -/

/-- The `error` values the file creates with `errors.New`, and the errors of
the network switch. -/
inductive GoError where
  /-- The message `wrong params...`. -/
  | wrongParams
  /-- The message `repeat ID:` followed by the identifier. -/
  | repeatID (id : Int)
  /-- The message `wrong conmmitt ID:` followed by the identifier. -/
  | wrongCommitteeID (id : Int)
  /-- The message `wrong ID:` followed by the identifier. -/
  | wrongID (id : Int)
  /-- The message `make the nil state`. -/
  | nilState
  /-- An error produced by the network switch. -/
  | switchError (code : Nat)
  deriving DecidableEq

/-- How a call ends. -/
inductive Outcome (σ : Type) where
  /-- The call returns `err` and leaves the receiver in state `st`. -/
  | ret (err : Option GoError) (st : σ)
  /-- The call panics on a nil dereference. -/
  | panic
  /-- The call blocks forever on a channel operation. -/
  | blocked
  deriving DecidableEq

/-! ## Data model -/

/-- An `ecdsa.PublicKey`. -/
structure PublicKey where
  X : Nat
  Y : Nat
  deriving DecidableEq

/-- The type `p2p.ID`, a string. -/
abbrev ID := String

/-- Modelled from the spec: `p2p.NetAddress` is declared outside the sources;
a network address names a peer identifier, an IP and a port. -/
structure NetAddress where
  ID : ID
  IP : String
  Port : Nat
  deriving DecidableEq

/-- Modelled from the spec: `types.CommitteeNode` is declared outside the
sources; a candidate peer is `{ip, port, publicKey}`, the key still encoded.
The fields are those `putNodes` reads; the pointer to a candidate is taken
non-nil. -/
structure CommitteeNode where
  IP : String
  Port : Nat
  Publickey : List Nat
  deriving DecidableEq

/-- Modelled from the spec: `types.CommitteeMember` is declared outside the
sources; a member holds a public key, which `MakeValidators` dereferences and
is taken non-nil. -/
structure CommitteeMember where
  Publickey : PublicKey
  deriving DecidableEq

/-- Modelled from the spec: `types.CommitteeInfo` is declared outside the
sources; the descriptor holds an identifier (nil allowed, the code tests it),
a start height (dereferenced unconditionally, taken non-nil) and the ordered
list of members (a nil slice and an empty one behave alike).  The pointer to
the descriptor is taken non-nil. -/
structure CommitteeInfo where
  Id : Option Int
  StartHeight : Int
  Members : List CommitteeMember
  deriving DecidableEq

/-- Modelled from the spec: `ttypes.Validator` is not part of the sources; the
spec gives it an identity (public key) and a voting power. -/
structure Validator where
  PubKey : PublicKey
  VotingPower : Nat
  deriving DecidableEq

/-- Modelled from the spec: `ttypes.ValidatorSet` is not part of the sources;
the spec makes it an ordered collection of validators whose order mirrors the
order of the input members. -/
structure ValidatorSet where
  Validators : List Validator
  deriving DecidableEq

/-- Modelled from the spec: `ttypes.StateAgentImpl` is not part of the
sources; the spec constructs it from (chain id, validator set, base height,
committee id) and lets `setEndHeight` mark its terminal height. -/
structure StateAgentImpl where
  ChainID : String
  Validators : Option ValidatorSet
  BeginHeight : Nat
  CID : Nat
  EndHeight : Nat
  deriving DecidableEq

/-- The struct `nodeInfo`. -/
structure nodeInfo where
  ID : ID
  Adrress : Option NetAddress
  IP : String
  Port : Nat
  Enable : Bool
  deriving DecidableEq

/-- Modelled from the spec: `p2p.Switch` is declared outside the sources; the
record keeps what this file does to a switch: listeners and reactors added, the
address book, node info and node key injected, and whether it runs. -/
structure Switch where
  listeners : Nat
  reactors : List String
  addrBookSet : Bool
  nodeInfoSet : Bool
  nodeKeySet : Bool
  running : Bool
  deriving DecidableEq

/-- Modelled from the spec: `ConsensusState` is declared outside the sources;
the record keeps what this file does to it, the injection of the private
validator. -/
structure ConsensusState where
  privValidatorSet : Bool
  deriving DecidableEq

/-- Modelled from the spec: `ConsensusReactor` is declared outside the sources;
the record keeps what this file does to it, the injection of the event bus. -/
structure ConsensusReactor where
  eventBusSet : Bool
  deriving DecidableEq

/-- The struct `service`.  `lock` and `updateChan` say whether the mutex and
the channel are allocated; `workers` and `signals` count goroutines. -/
structure service where
  sw : Option Switch
  consensusState : Option ConsensusState
  consensusReactor : Option ConsensusReactor
  sa : Option StateAgentImpl
  nodeTable : Option (List (ID × nodeInfo))
  lock : Bool
  updateChan : Bool
  workers : Nat
  signals : Nat
  deriving DecidableEq

/-- The part of `Node` the operations read and write: the chain id and the
map of services. -/
structure Node where
  chainID : String
  services : List (Nat × service)
  deriving DecidableEq

/-- The collaborators of the file that live in other packages, taken as
parameters. -/
structure Collaborators where
  /-- The function `crypto.UnmarshalPubkey`; `none` is a parse error. -/
  UnmarshalPubkey : List Nat → Option PublicKey
  /-- The function `crypto.PubkeyToAddress`, giving the address bytes. -/
  PubkeyToAddress : PublicKey → List Nat
  /-- The function `p2p.NewNetAddressString` applied to `p2p.IDAddressString` of the
  identifier and of `IP:Port`; `none` is a nil address. -/
  NewNetAddress : ID → String → Nat → Option NetAddress
  /-- Whether `ttypes.NewStateAgent` returns nil for these arguments. -/
  stateAgentNil : String → Option ValidatorSet → Nat → Nat → Bool
  /-- The error of `(*p2p.Switch).Start`, `none` when the switch starts. -/
  SwitchStart : Switch → Option GoError
  /-- The error of `DialPeerWithAddress` for a peer, `none` on success. -/
  Dial : nodeInfo → Option GoError

/-! ## Constants -/

/-- The action `Start`. -/
def Start : Int := 0
/-- The action `Stop`. -/
def Stop : Int := 1
/-- The action `Switch`. -/
def SwitchAction : Int := 2

/-! ## Helpers from the standard library -/

/-- One hexadecimal digit. -/
def hexDigit (n : Nat) : Char := "0123456789abcdef".toList.getD n '0'

/-- The function `hex.EncodeToString`. -/
def hexEncodeToString (bs : List Nat) : String :=
  String.mk (bs.flatMap fun b => [hexDigit (b % 256 / 16), hexDigit (b % 16)])

/-! ## service -/

/-- The constructor `NewNodeService`: table, mutex and channel allocated,
everything else nil. -/
def NewNodeService : service :=
  { sw := none, consensusState := none, consensusReactor := none, sa := none,
    nodeTable := some [], lock := true, updateChan := true,
    workers := 0, signals := 0 }

/-- The method `service.start`: add the listener, inject node info, node key and private
validator, start the switch, and on success spawn the dispatcher loop. -/
def service.start (c : Collaborators) (s : service) : Outcome service :=
  match s.sw with
  | none => Outcome.panic
  | some sw =>
    let sw1 := { sw with listeners := sw.listeners + 1, nodeInfoSet := true,
                         nodeKeySet := true }
    match s.consensusState with
    | none => Outcome.panic
    | some cs =>
      let s1 := { s with sw := some sw1,
                         consensusState := some { cs with privValidatorSet := true } }
      match c.SwitchStart sw1 with
      | some err => Outcome.ret (some err) s1
      | none =>
        Outcome.ret none
          { s1 with sw := some { sw1 with running := true },
                    workers := s1.workers + 1 }

/-- The method `service.stop`: hand `false` to a dispatcher loop, then stop the switch.
The send has a receiver only when the channel is allocated and a loop is
alive. -/
def service.stop (s : service) : Outcome service :=
  if s.updateChan = true ∧ 0 < s.workers then
    match s.sw with
    | none => Outcome.panic
    | some sw =>
      Outcome.ret none
        { s with workers := s.workers - 1, sw := some { sw with running := false } }
  else Outcome.blocked

/-- The method `service.getStateAgent`. -/
def service.getStateAgent (s : service) : Option StateAgentImpl := s.sa

/-- The identifier `putNodes` derives for a candidate, `none` when its public
key does not parse. -/
def derivedID (c : Collaborators) (node : CommitteeNode) : Option ID :=
  (c.UnmarshalPubkey node.Publickey).map fun pub =>
    hexEncodeToString (c.PubkeyToAddress pub)

/-- The entry `putNodes` stores for a candidate under the identifier `id`:
the address built from the identifier and the announced `IP:Port`, and
`Enable` false. -/
def newNodeInfo (c : Collaborators) (id : ID) (node : CommitteeNode) : nodeInfo :=
  { ID := id, Adrress := c.NewNetAddress id node.IP node.Port, IP := node.IP,
    Port := node.Port, Enable := false }

/-- The first candidate in list order whose public key parses and derives
the identifier `id`. -/
def firstCandidate (c : Collaborators) (nodes : List CommitteeNode) (id : ID) :
    Option CommitteeNode :=
  nodes.find? fun node => decide (derivedID c node = some id)

/-- The loop of `service.putNodes` over the candidates, threading the table
and the `update` flag. -/
def putNodesLoop (c : Collaborators) :
    List CommitteeNode → List (ID × nodeInfo) → Bool → List (ID × nodeInfo) × Bool
  | [], table, update => (table, update)
  | node :: rest, table, update =>
    match c.UnmarshalPubkey node.Publickey with
    | none => putNodesLoop c rest table update
    | some pub =>
      let address := c.PubkeyToAddress pub
      let id := hexEncodeToString address
      match mapGet table id with
      | none => putNodesLoop c rest (mapSet table id (newNodeInfo c id node)) true
      | some _ => putNodesLoop c rest table update

/-- The method `service.putNodes`.  A nil slice returns at once; otherwise the mutex is
taken (a nil mutex panics), the loop runs (an insertion into a nil map
panics), and a detached sender is raised when an entry was added. -/
def service.putNodes (c : Collaborators) (s : service)
    (nodes : Option (List CommitteeNode)) : Outcome service :=
  match nodes with
  | none => Outcome.ret none s
  | some ns =>
    if s.lock = false then Outcome.panic
    else
      match s.nodeTable with
      | none =>
        if (putNodesLoop c ns [] false).2 = true then Outcome.panic
        else Outcome.ret none s
      | some table =>
        let r := putNodesLoop c ns table false
        Outcome.ret none
          { s with nodeTable := some r.1,
                   signals := if r.2 = true then s.signals + 1 else s.signals }

/-- The method `service.connTo`: dial the peer unless it is connected; mark it
connected when the dial succeeds.  Returns the entry and whether a dial was
issued. -/
def service.connTo (c : Collaborators) (node : nodeInfo) : nodeInfo × Bool :=
  if node.Enable = true then (node, false)
  else
    match c.Dial node with
    | some _ => (node, true)
    | none => ({ node with Enable := true }, true)

/-- The loop of `service.updateNodes` over the table: the new table and the
identifiers dialed, in order. -/
def updateNodesLoop (c : Collaborators) :
    List (ID × nodeInfo) → List (ID × nodeInfo) × List ID
  | [] => ([], [])
  | (k, v) :: rest =>
    let r := updateNodesLoop c rest
    if v.Enable = false then
      let d := service.connTo c v
      ((k, d.1) :: r.1, if d.2 = true then k :: r.2 else r.2)
    else ((k, v) :: r.1, r.2)

/-- The method `service.updateNodes`: take the mutex and run one connect-pass.  Returns
the service and the identifiers dialed. -/
def service.updateNodes (c : Collaborators) (s : service) :
    Outcome (service × List ID) :=
  if s.lock = false then Outcome.panic
  else
    match s.nodeTable with
    | none => Outcome.ret none (s, [])
    | some table =>
      let r := updateNodesLoop c table
      match s.sw, r.2 with
      | none, _ :: _ => Outcome.panic
      | _, _ => Outcome.ret none ({ s with nodeTable := some r.1 }, r.2)

/-- One turn of the dispatcher loop spawned by `start`: it receives `update`
from `updateChan` and runs a connect-pass on `true` or returns on `false`.  A
receive from a nil channel blocks forever. -/
def service.dispatcherStep (c : Collaborators) (s : service) (update : Bool) :
    Outcome (service × List ID) :=
  if s.updateChan = false then Outcome.blocked
  else if update = true then service.updateNodes c s
  else Outcome.ret none ({ s with workers := s.workers - 1 }, [])

/-! ## Validators -/

/-- The conversion `tcrypto.PubKeyTrue` of the key type. -/
def PubKeyTrue (k : PublicKey) : PublicKey := k

/-- Modelled from the spec: `ttypes.NewValidator` is not part of the sources;
the validator carries the given public key and power. -/
def NewValidator (pubKey : PublicKey) (votingPower : Nat) : Validator :=
  { PubKey := pubKey, VotingPower := votingPower }

/-- Modelled from the spec: `ttypes.NewValidatorSet` is not part of the
sources; the set holds the given validators in the given order. -/
def NewValidatorSet (vals : List Validator) : ValidatorSet :=
  { Validators := vals }

/-- The loop of `MakeValidators`: `i` is the index of the next member and
`vals` the slice built so far. -/
def makeValidatorsLoop : Nat → List CommitteeMember → List Validator → List Validator
  | _, [], vals => vals
  | i, m :: rest, vals =>
    let power : Nat := if i = 0 then 1 else 1
    let v := NewValidator (PubKeyTrue m.Publickey) power
    makeValidatorsLoop (i + 1) rest (vals ++ [v])

/-- The function `MakeValidators`; `none` is the nil result. -/
def MakeValidators (cmm : CommitteeInfo) : Option ValidatorSet :=
  match cmm.Id with
  | none => none
  | some _ =>
    if cmm.Members.length ≤ 0 then none
    else some (NewValidatorSet (makeValidatorsLoop 0 cmm.Members []))

/-! ## State agent -/

/-- Modelled from the spec: `ttypes.NewStateAgent` is not part of the sources;
it stores its arguments, with no terminal height yet.  Whether it returns nil
is left to the collaborators. -/
def NewStateAgent (c : Collaborators) (chainID : String) (vals : Option ValidatorSet)
    (height cid : Nat) : Option StateAgentImpl :=
  if c.stateAgentNil chainID vals height cid = true then none
  else some { ChainID := chainID, Validators := vals, BeginHeight := height,
              CID := cid, EndHeight := 0 }

/-- Modelled from the spec: `SetEndHeight` is not part of the sources; it
marks the terminal height of the agent. -/
def StateAgentImpl.SetEndHeight (sa : StateAgentImpl) (h : Nat) : StateAgentImpl :=
  { sa with EndHeight := h }

/-! ## Node -/

/-- The constructor `NewNode`, restricted to the modelled fields: no service yet. -/
def NewNode (chainID : String) : Node := { chainID := chainID, services := [] }

/-- The method `Node.Notify`.  The result of `server.start` and `server.stop` is
dropped; only a panic or a blocked send of the callee reaches the caller. -/
def Node.Notify (c : Collaborators) (n : Node) (id : Option Int) (action : Int) :
    Outcome Node :=
  if action = Start then
    match id with
    | none => Outcome.panic
    | some i =>
      match mapGet n.services (bigUint64 i) with
      | some server =>
        match server.start c with
        | Outcome.ret _ s =>
          Outcome.ret none { n with services := mapSet n.services (bigUint64 i) s }
        | Outcome.panic => Outcome.panic
        | Outcome.blocked => Outcome.blocked
      | none => Outcome.ret (some (GoError.wrongCommitteeID i)) n
  else if action = Stop then
    match id with
    | none => Outcome.panic
    | some i =>
      match mapGet n.services (bigUint64 i) with
      | some server =>
        match server.stop with
        | Outcome.ret _ s =>
          Outcome.ret none { n with services := mapSet n.services (bigUint64 i) s }
        | Outcome.panic => Outcome.panic
        | Outcome.blocked => Outcome.blocked
      | none => Outcome.ret none n
  else if action = SwitchAction then Outcome.ret none n
  else Outcome.ret none n

/-- The base commit height of `PutCommittee`: the start height as a `uint64`,
decremented when it is `>= 0`. -/
def lastCommitHeight (startHeight : Int) : Nat :=
  let h := bigUint64 startHeight
  if h ≥ 0 then uint64Dec h else h

/-- The service `PutCommittee` assembles around the state agent: a fresh
switch with the consensus reactor added and the address book set, the
consensus state, the reactor with the event bus set.  The literal leaves
`nodeTable`, `lock` and `updateChan` unset. -/
def committeeService (state : StateAgentImpl) : service :=
  { sw := some { listeners := 0, reactors := ["CONSENSUS"], addrBookSet := true,
                 nodeInfoSet := false, nodeKeySet := false, running := false },
    consensusState := some { privValidatorSet := false },
    consensusReactor := some { eventBusSet := true },
    sa := some state,
    nodeTable := none, lock := false, updateChan := false,
    workers := 0, signals := 0 }

/-- The method `Node.PutCommittee`. -/
def Node.PutCommittee (c : Collaborators) (n : Node) (committeeInfo : CommitteeInfo) :
    Outcome Node :=
  let id := committeeInfo.Id
  let members := committeeInfo.Members
  match id with
  | none => Outcome.ret (some GoError.wrongParams) n
  | some i =>
    if members.length ≤ 0 then Outcome.ret (some GoError.wrongParams) n
    else
      match mapGet n.services (bigUint64 i) with
      | some _ => Outcome.ret (some (GoError.repeatID i)) n
      | none =>
        let cid := bigUint64 i
        match NewStateAgent c n.chainID (MakeValidators committeeInfo)
                (lastCommitHeight committeeInfo.StartHeight) cid with
        | none => Outcome.ret (some GoError.nilState) n
        | some state =>
          Outcome.ret none
            { n with services := mapSet n.services (bigUint64 i) (committeeService state) }

/-- The method `Node.PutNodes`. -/
def Node.PutNodes (c : Collaborators) (n : Node) (id : Option Int)
    (nodes : Option (List CommitteeNode)) : Outcome Node :=
  match id with
  | none => Outcome.ret (some GoError.wrongParams) n
  | some i =>
    if (nodes.getD []).length ≤ 0 then Outcome.ret (some GoError.wrongParams) n
    else
      match mapGet n.services (bigUint64 i) with
      | none => Outcome.ret (some (GoError.wrongID i)) n
      | some server =>
        match server.putNodes c nodes with
        | Outcome.ret _ s =>
          Outcome.ret none { n with services := mapSet n.services (bigUint64 i) s }
        | Outcome.panic => Outcome.panic
        | Outcome.blocked => Outcome.blocked

/-- The method `Node.SetCommitteeStop`.  The height handed to `SetEndHeight` is
`committeeId.Uint64()`; the parameter `stop` is not read. -/
def Node.SetCommitteeStop (n : Node) (committeeId : Option Int) (_stop : Nat) :
    Outcome Node :=
  match committeeId with
  | none => Outcome.panic
  | some i =>
    match mapGet n.services (bigUint64 i) with
    | some server =>
      match server.getStateAgent with
      | none => Outcome.panic
      | some sa =>
        let server1 : service := { server with sa := some (sa.SetEndHeight (bigUint64 i)) }
        Outcome.ret none { n with services := mapSet n.services (bigUint64 i) server1 }
    | none => Outcome.ret (some (GoError.wrongCommitteeID i)) n

/-! ## Observations -/

/-- The terminal height held by the state agent of the committee under `key`. -/
def Node.endHeight (n : Node) (key : Nat) : Option Nat :=
  (mapGet n.services key).bind fun s => s.sa.map fun a => a.EndHeight

/-- The base height held by the state agent of the committee under `key`. -/
def Node.beginHeight (n : Node) (key : Nat) : Option Nat :=
  (mapGet n.services key).bind fun s => s.sa.map fun a => a.BeginHeight

/-- The number of dispatcher loops alive for the committee under `key`. -/
def Node.workersOf (n : Node) (key : Nat) : Option Nat :=
  (mapGet n.services key).map fun s => s.workers

/-- The error a call returned, `none` when it returned nil, panicked or
blocked. -/
def Outcome.error {σ : Type} : Outcome σ → Option GoError
  | Outcome.ret err _ => err
  | _ => none

/-- The state a call left behind when it returned. -/
def Outcome.state {σ : Type} : Outcome σ → Option σ
  | Outcome.ret _ st => some st
  | _ => none

/-- The call returned (it neither panicked nor blocked). -/
def Outcome.returned {σ : Type} : Outcome σ → Bool
  | Outcome.ret _ _ => true
  | _ => false

/-! ## Specification-side descriptions -/

/-- What one connect-pass does to an entry: it is connected afterwards when
it was connected or its dial succeeded; nothing else changes. -/
def afterPass (c : Collaborators) (e : ID × nodeInfo) : ID × nodeInfo :=
  (e.1, { e.2 with Enable := e.2.Enable || (c.Dial e.2).isNone })

/-! ## Concrete collaborators and inputs -/

/-- Collaborators for the examples: a key encoding is the marker byte 4
followed by the two coordinates, the address of a key is its coordinates,
every address parses, the state agent is never nil, the switch starts, and a
dial succeeds exactly for the even ports. -/
def demo : Collaborators :=
  { UnmarshalPubkey := fun bs =>
      match bs with
      | [4, x, y] => some { X := x, Y := y }
      | _ => none
    PubkeyToAddress := fun k => [k.X, k.Y]
    NewNetAddress := fun id ip port => some { ID := id, IP := ip, Port := port }
    stateAgentNil := fun _ _ _ _ => false
    SwitchStart := fun _ => none
    Dial := fun v => if v.Port % 2 = 0 then none else some (GoError.switchError 1) }

/-- The collaborators of `demo` with a switch that fails to start. -/
def demoSwitchDown : Collaborators :=
  { demo with SwitchStart := fun _ => some (GoError.switchError 7) }

/-- A descriptor with identifier `id`, start height `h` and one member. -/
def committee (id h : Int) : CommitteeInfo :=
  { Id := some id, StartHeight := h, Members := [{ Publickey := { X := 1, Y := 2 } }] }

/-- The service `PutCommittee` builds for `committee 7 100` on chain `true`. -/
def committeeService7 : service :=
  { sw := some { listeners := 0, reactors := ["CONSENSUS"], addrBookSet := true,
                 nodeInfoSet := false, nodeKeySet := false, running := false },
    consensusState := some { privValidatorSet := false },
    consensusReactor := some { eventBusSet := true },
    sa := some { ChainID := "true",
                 Validators := some { Validators := [{ PubKey := { X := 1, Y := 2 },
                                                        VotingPower := 1 }] },
                 BeginHeight := 99, CID := 7, EndHeight := 0 },
    nodeTable := none, lock := false, updateChan := false,
    workers := 0, signals := 0 }

/-- The node after `PutCommittee` registered committee 7 on a fresh node. -/
def node7 : Node := { chainID := "true", services := [(7, committeeService7)] }

/-- A candidate peer with key coordinates `x`, `y`. -/
def peer (x y : Nat) (ip : String) (port : Nat) : CommitteeNode :=
  { IP := ip, Port := port, Publickey := [4, x, y] }

/-- A candidate peer whose public key does not parse. -/
def badPeer : CommitteeNode := { IP := "10.0.0.9", Port := 1, Publickey := [0] }

/-- A table entry for the peer with key coordinates 1, 2, already connected. -/
def knownPeer : ID × nodeInfo :=
  ("0102", { ID := "0102", Adrress := some { ID := "0102", IP := "10.0.0.1", Port := 30303 },
             IP := "10.0.0.1", Port := 30303, Enable := true })

/-- A table entry for a peer not yet connected, listening on `port`. -/
def pendingPeer (id : ID) (port : Nat) : ID × nodeInfo :=
  (id, { ID := id, Adrress := some { ID := id, IP := "10.0.0.2", Port := port },
         IP := "10.0.0.2", Port := port, Enable := false })

/-- A service with an allocated peer table, mutex and channel and a switch. -/
def tableService (table : List (ID × nodeInfo)) : service :=
  { NewNodeService with
    sw := some { listeners := 0, reactors := [], addrBookSet := false,
                 nodeInfoSet := false, nodeKeySet := false, running := false },
    nodeTable := some table }

/-! ## Lemmas on maps -/

theorem mapGet_append {κ ν : Type} [DecidableEq κ] (m m2 : List (κ × ν)) (k : κ) :
    mapGet (m ++ m2) k = (mapGet m k).orElse fun _ => mapGet m2 k := by
  induction m with
  | nil => simp [mapGet]
  | cons e rest ih =>
    obtain ⟨k', v'⟩ := e
    by_cases h : k' = k
    · simp [mapGet, h]
    · simp [mapGet, h, ih]

theorem mapSet_absent {κ ν : Type} [DecidableEq κ] (m : List (κ × ν)) (k : κ) (v : ν)
    (h : mapGet m k = none) : mapSet m k v = m ++ [(k, v)] := by
  induction m with
  | nil => rfl
  | cons e rest ih =>
    obtain ⟨k', v'⟩ := e
    by_cases hk : k' = k
    · simp [mapGet, hk] at h
    · simp only [mapGet, hk, if_false] at h
      simp [mapSet, hk, ih h]

theorem mapGet_mapSet_self {κ ν : Type} [DecidableEq κ] (m : List (κ × ν)) (k : κ) (v : ν) :
    mapGet (mapSet m k v) k = some v := by
  induction m with
  | nil => simp [mapSet, mapGet]
  | cons e rest ih =>
    obtain ⟨k', v'⟩ := e
    by_cases hk : k' = k
    · simp [mapSet, mapGet, hk]
    · simp [mapSet, mapGet, hk, ih]

theorem mapGet_mapSet_ne {κ ν : Type} [DecidableEq κ] (m : List (κ × ν)) (k k2 : κ) (v : ν)
    (h : k2 ≠ k) : mapGet (mapSet m k v) k2 = mapGet m k2 := by
  induction m with
  | nil =>
    have h2 : ¬ k = k2 := fun e => h e.symm
    simp [mapSet, mapGet, h2]
  | cons e rest ih =>
    obtain ⟨k', v'⟩ := e
    by_cases hk : k' = k
    · subst hk
      have h2 : ¬ k' = k2 := fun e => h e.symm
      simp [mapSet, mapGet, h2]
    · by_cases hk2 : k' = k2
      · subst hk2
        simp [mapSet, mapGet, hk]
      · simp [mapSet, mapGet, hk, hk2, ih]

theorem mapGet_none_iff {κ ν : Type} [DecidableEq κ] (m : List (κ × ν)) (k : κ) :
    mapGet m k = none ↔ k ∉ mapKeys m := by
  induction m with
  | nil => simp [mapGet, mapKeys]
  | cons e rest ih =>
    obtain ⟨k', v'⟩ := e
    by_cases hk : k' = k
    · simp [mapGet, mapKeys, hk]
    · have hk2 : ¬ k = k' := fun e => hk e.symm
      simp only [mapKeys] at ih
      simp [mapGet, mapKeys, hk, hk2, ih]

/-! ## PutCommittee and PutNodes: argument checks, duplicates, registration -/

/-- C1.  For a descriptor with a non-nil identifier and at least one member:
when the identifier (as the `uint64` map key) is not registered and the state
agent constructor does not return nil, `PutCommittee` returns nil and the
services map gains exactly one binding, a service in the created state under
that key, every other key keeping its lookup; when the identifier is
registered, `PutCommittee` returns the duplicate error and the node, the
services map with the existing service included, is unchanged. -/
theorem PutCommittee_registers_once (c : Collaborators) (n : Node) (ci : CommitteeInfo)
    (id : Int) (hid : ci.Id = some id) (hmem : ci.Members ≠ []) :
    (mapGet n.services (bigUint64 id) = none →
      c.stateAgentNil n.chainID (MakeValidators ci) (lastCommitHeight ci.StartHeight)
        (bigUint64 id) = false →
      ∃ (n' : Node) (srv : service),
        Node.PutCommittee c n ci = Outcome.ret none n' ∧
        n'.chainID = n.chainID ∧
        n'.services = n.services ++ [(bigUint64 id, srv)] ∧
        mapGet n'.services (bigUint64 id) = some srv ∧
        (∀ k, k ≠ bigUint64 id → mapGet n'.services k = mapGet n.services k) ∧
        n'.services.length = n.services.length + 1 ∧
        srv.workers = 0) ∧
    (∀ old : service, mapGet n.services (bigUint64 id) = some old →
      Node.PutCommittee c n ci = Outcome.ret (some (GoError.repeatID id)) n) := by
  have hlen : ¬ ci.Members.length ≤ 0 := by
    cases hm : ci.Members with
    | nil => exact absurd hm hmem
    | cons a l => simp
  refine ⟨?_, ?_⟩
  · intro habs hsa
    let st : StateAgentImpl :=
      { ChainID := n.chainID, Validators := MakeValidators ci,
        BeginHeight := lastCommitHeight ci.StartHeight, CID := bigUint64 id,
        EndHeight := 0 }
    refine ⟨{ n with services := mapSet n.services (bigUint64 id) (committeeService st) },
      committeeService st, ?_, rfl, ?_, ?_, ?_, ?_, ?_⟩
    · simp only [Node.PutCommittee, hid, hlen, if_false, habs, NewStateAgent, hsa]
      rfl
    · exact mapSet_absent _ _ _ habs
    · exact mapGet_mapSet_self _ _ _
    · intro k hk
      exact mapGet_mapSet_ne _ _ _ _ hk
    · show (mapSet n.services (bigUint64 id) _).length = _
      rw [mapSet_absent _ _ _ habs]
      simp
    · rfl
  · intro old hold
    simp [Node.PutCommittee, hid, hlen, hold]

/-- Witness for C1: committee 7 is registered on a fresh node, and a second
descriptor with identifier 7 and another membership is refused. -/
theorem PutCommittee_registers_once_witness :
    (∃ (n' : Node) (srv : service),
        Node.PutCommittee demo (NewNode "true") (committee 7 100) = Outcome.ret none n' ∧
        n'.chainID = (NewNode "true").chainID ∧
        n'.services = (NewNode "true").services ++ [(bigUint64 7, srv)] ∧
        mapGet n'.services (bigUint64 7) = some srv ∧
        (∀ k, k ≠ bigUint64 7 → mapGet n'.services k = mapGet (NewNode "true").services k) ∧
        n'.services.length = (NewNode "true").services.length + 1 ∧
        srv.workers = 0) ∧
    (Node.PutCommittee demo node7
        { Id := some 7, StartHeight := 5,
          Members := [{ Publickey := { X := 8, Y := 9 } }, { Publickey := { X := 1, Y := 1 } }] }
      = Outcome.ret (some (GoError.repeatID 7)) node7) :=
  ⟨(PutCommittee_registers_once demo (NewNode "true") (committee 7 100) 7 rfl
      (by decide)).1 (by decide) rfl,
   (PutCommittee_registers_once demo node7
      { Id := some 7, StartHeight := 5,
        Members := [{ Publickey := { X := 8, Y := 9 } }, { Publickey := { X := 1, Y := 1 } }] }
      7 rfl (by decide)).2 (committeeService7) (by decide)⟩

/-- C8.  `PutCommittee` on a descriptor whose identifier is nil or whose
membership is empty, and `PutNodes` on a nil identifier or an empty (or nil)
peer list, return the invalid-argument error and leave the node, hence the
services map and every peer table in it, exactly as it was. -/
theorem invalid_arguments_mutate_nothing (c : Collaborators) (n : Node)
    (ci : CommitteeInfo) (id : Option Int) (nodes : Option (List CommitteeNode))
    (hci : ci.Id = none ∨ ci.Members = [])
    (hpn : id = none ∨ nodes = none ∨ nodes = some []) :
    Node.PutCommittee c n ci = Outcome.ret (some GoError.wrongParams) n ∧
    Node.PutNodes c n id nodes = Outcome.ret (some GoError.wrongParams) n := by
  constructor
  · cases hI : ci.Id with
    | none => simp [Node.PutCommittee, hI]
    | some i =>
      rcases hci with h | h
      · simp [hI] at h
      · simp [Node.PutCommittee, hI, h]
  · cases id with
    | none => simp [Node.PutNodes]
    | some i =>
      rcases hpn with h | h | h
      · simp at h
      · simp [Node.PutNodes, h]
      · simp [Node.PutNodes, h]

/-- Witness for C8: an empty membership and an empty peer list on a node that
already holds committee 7. -/
theorem invalid_arguments_mutate_nothing_witness :
    Node.PutCommittee demo node7 { Id := some 7, StartHeight := 1, Members := [] }
      = Outcome.ret (some GoError.wrongParams) node7 ∧
    Node.PutNodes demo node7 (some 7) (some [])
      = Outcome.ret (some GoError.wrongParams) node7 :=
  invalid_arguments_mutate_nothing demo node7
    { Id := some 7, StartHeight := 1, Members := [] } (some 7) (some [])
    (Or.inr rfl) (Or.inr (Or.inr rfl))

/-! ## Notify -/

/-- The call `Notify` with `Start` on an identifier without a service returns the
not-found error and changes nothing. -/
theorem Notify_start_unregistered (c : Collaborators) (n : Node) (id : Int)
    (h : mapGet n.services (bigUint64 id) = none) :
    Node.Notify c n (some id) Start = Outcome.ret (some (GoError.wrongCommitteeID id)) n := by
  simp [Node.Notify, h]

/-- The call `Notify` with `Switch` returns nil for every identifier, nil included, and
changes nothing. -/
theorem Notify_switch_ok (c : Collaborators) (n : Node) (id : Option Int) :
    Node.Notify c n id SwitchAction = Outcome.ret none n := by
  simp [Node.Notify, SwitchAction, Start, Stop]

/-- The call `Notify` with `Stop` on an identifier without a service returns nil and
changes nothing. -/
theorem Notify_stop_unregistered (c : Collaborators) (n : Node) (id : Int)
    (h : mapGet n.services (bigUint64 id) = none) :
    Node.Notify c n (some id) Stop = Outcome.ret none n := by
  simp [Node.Notify, h, Start, Stop]

/-- C2 (the code departs from the claim).  `Notify` with `Stop` never returns
an error: on the node holding only committee 7, `Notify(99, Stop)` returns nil
although no service is registered under 99, while `Notify(99, Start)` returns
the not-found error and `Notify(99, Switch)` returns nil. -/
theorem Notify_stop_never_reports_not_found :
    (∀ (c : Collaborators) (n : Node) (id : Int),
      (Node.Notify c n (some id) Stop).error = none) ∧
    mapGet node7.services (bigUint64 99) = none ∧
    Node.Notify demo node7 (some 99) Stop = Outcome.ret none node7 ∧
    Node.Notify demo node7 (some 99) Start
      = Outcome.ret (some (GoError.wrongCommitteeID 99)) node7 ∧
    Node.Notify demo node7 (some 99) SwitchAction = Outcome.ret none node7 := by
  refine ⟨?_, by decide, by decide, by decide, by decide⟩
  intro c n id
  simp only [Node.Notify, Start, Stop]
  cases hg : mapGet n.services (bigUint64 id) with
  | none => simp [Outcome.error]
  | some server =>
    cases hs : server.stop <;> simp [Outcome.error, hs]

/-- The method `service.start` hands the failure of the switch to its caller and spawns
no dispatcher loop. -/
theorem start_returns_switch_failure (c : Collaborators) (s : service) (sw : Switch)
    (cs : ConsensusState) (err : GoError) (hsw : s.sw = some sw)
    (hcs : s.consensusState = some cs)
    (hfail : c.SwitchStart { sw with listeners := sw.listeners + 1, nodeInfoSet := true,
                                     nodeKeySet := true } = some err) :
    service.start c s
      = Outcome.ret (some err)
          { s with sw := some { sw with listeners := sw.listeners + 1, nodeInfoSet := true,
                                        nodeKeySet := true },
                   consensusState := some { cs with privValidatorSet := true } } := by
  simp only [service.start, hsw, hcs, hfail]

/-- C4 (the code departs from the claim).  With a switch that fails to start,
`service.start` of committee 7 returns the failure and spawns no dispatcher
loop, but `Notify(7, Start)` drops that result and returns nil; the only error
`Notify` with `Start` can return is the not-found error. -/
theorem Notify_start_drops_switch_failure :
    (service.start demoSwitchDown committeeService7).error = some (GoError.switchError 7) ∧
    (service.start demoSwitchDown committeeService7).state.map (fun s => s.workers) = some 0 ∧
    (Node.Notify demoSwitchDown node7 (some 7) Start).error = none ∧
    (Node.Notify demoSwitchDown node7 (some 7) Start).returned = true ∧
    ((Node.Notify demoSwitchDown node7 (some 7) Start).state.bind fun n => n.workersOf 7)
      = some 0 ∧
    (∀ (c : Collaborators) (n : Node) (id : Int),
      (Node.Notify c n (some id) Start).error = none ∨
      (Node.Notify c n (some id) Start).error = some (GoError.wrongCommitteeID id)) := by
  refine ⟨by decide, by decide, by decide, by decide, by decide, ?_⟩
  intro c n id
  simp only [Node.Notify, if_true]
  cases hg : mapGet n.services (bigUint64 id) with
  | none => simp [Outcome.error]
  | some server =>
    cases hs : server.start c <;> simp [Outcome.error, hs]

/-! ## SetCommitteeStop -/

/-- The call `SetCommitteeStop` on an identifier without a service returns the
not-found error and touches no state agent. -/
theorem SetCommitteeStop_unregistered (n : Node) (id : Int) (stop : Nat)
    (h : mapGet n.services (bigUint64 id) = none) :
    Node.SetCommitteeStop n (some id) stop
      = Outcome.ret (some (GoError.wrongCommitteeID id)) n := by
  simp [Node.SetCommitteeStop, h]

/-- The call `SetCommitteeStop` on a registered committee returns nil and sets the
terminal height of its agent to the identifier. -/
theorem SetCommitteeStop_registered (n : Node) (id : Int) (stop : Nat) (server : service)
    (sa : StateAgentImpl) (h : mapGet n.services (bigUint64 id) = some server)
    (hsa : server.sa = some sa) :
    ∃ n', Node.SetCommitteeStop n (some id) stop = Outcome.ret none n' ∧
      n'.endHeight (bigUint64 id) = some (bigUint64 id) := by
  let server1 : service := { server with sa := some (sa.SetEndHeight (bigUint64 id)) }
  refine ⟨{ n with services := mapSet n.services (bigUint64 id) server1 }, ?_, ?_⟩
  · simp only [Node.SetCommitteeStop, h, service.getStateAgent, hsa]
  · simp [Node.endHeight, mapGet_mapSet_self, StateAgentImpl.SetEndHeight]

/-- C3 (the code departs from the claim).  The result of `SetCommitteeStop`
does not depend on the end height it is given: on the node holding committee
7, `SetCommitteeStop(7, 100)` returns nil and leaves the agent with terminal
height 7, the identifier, not 100. -/
theorem SetCommitteeStop_ignores_end_height :
    (∀ (n : Node) (id : Option Int) (stop : Nat),
      Node.SetCommitteeStop n id stop = Node.SetCommitteeStop n id 0) ∧
    (Node.SetCommitteeStop node7 (some 7) 100).error = none ∧
    (Node.SetCommitteeStop node7 (some 7) 100).returned = true ∧
    ((Node.SetCommitteeStop node7 (some 7) 100).state.bind fun n => n.endHeight 7) = some 7 ∧
    Node.SetCommitteeStop node7 (some 99) 100
      = Outcome.ret (some (GoError.wrongCommitteeID 99)) node7 := by
  refine ⟨fun _ _ _ => rfl, by decide, by decide, by decide, by decide⟩

/-! ## Base commit height -/

/-- The guard of the decrement is always taken. -/
theorem lastCommitHeight_eq (h : Int) : lastCommitHeight h = uint64Dec (bigUint64 h) := by
  simp [lastCommitHeight]

/-- For a start height between 1 and `2^64 - 1` the base height is one less. -/
theorem lastCommitHeight_pos (h : Nat) (h1 : 1 ≤ h) (h2 : h < 2 ^ 64) :
    lastCommitHeight (h : Int) = h - 1 := by
  simp only [lastCommitHeight_eq, bigUint64, uint64Dec, Int.natAbs_ofNat]
  rw [Nat.mod_eq_of_lt h2]
  have e : h + (2 ^ 64 - 1) = (h - 1) + 2 ^ 64 := by omega
  rw [e, Nat.add_mod_right]
  exact Nat.mod_eq_of_lt (by omega)

/-- C10 (the code departs from the claim).  The decrement is guarded by a
comparison that holds for every `uint64`, so the base height is always the
wrapping decrement of the start height: start height 1 gives 0 and 100 gives
99, but start height 0 gives `2^64 - 1`, and that value is what `PutCommittee`
hands to the state agent. -/
theorem lastCommitHeight_wraps_at_zero :
    (∀ h : Int, lastCommitHeight h = (bigUint64 h + (2 ^ 64 - 1)) % 2 ^ 64) ∧
    lastCommitHeight 1 = 0 ∧
    lastCommitHeight 100 = 99 ∧
    lastCommitHeight 0 = 2 ^ 64 - 1 ∧
    (Node.PutCommittee demo (NewNode "true") (committee 7 0)).error = none ∧
    ((Node.PutCommittee demo (NewNode "true") (committee 7 0)).state.bind
      fun n => n.beginHeight 7) = some 18446744073709551615 := by
  refine ⟨fun h => ?_, by decide, by decide, by decide, by decide, by decide⟩
  rw [lastCommitHeight_eq]
  rfl

/-! ## MakeValidators -/

theorem makeValidatorsLoop_eq (i : Nat) (ms : List CommitteeMember) (vals : List Validator) :
    makeValidatorsLoop i ms vals
      = vals ++ ms.map fun m => { PubKey := m.Publickey, VotingPower := 1 } := by
  induction ms generalizing i vals with
  | nil => simp [makeValidatorsLoop]
  | cons m rest ih =>
    simp [makeValidatorsLoop, ih, NewValidator, PubKeyTrue]

/-- C7.  For a descriptor with a non-nil identifier and `N ≥ 1` members,
`MakeValidators` returns a validator set with exactly `N` validators, the
`i`-th carrying the public key of the `i`-th member, each with voting power
1. -/
theorem MakeValidators_size_order_power (cmm : CommitteeInfo) (id : Int)
    (hid : cmm.Id = some id) (hN : 1 ≤ cmm.Members.length) :
    ∃ vs : ValidatorSet, MakeValidators cmm = some vs ∧
      vs.Validators.length = cmm.Members.length ∧
      (∀ i (hi : i < cmm.Members.length),
        vs.Validators[i]? = some { PubKey := (cmm.Members.get ⟨i, hi⟩).Publickey,
                                   VotingPower := 1 }) ∧
      (∀ v ∈ vs.Validators, v.VotingPower = 1) := by
  have hlen : ¬ cmm.Members.length ≤ 0 := by omega
  refine ⟨NewValidatorSet (makeValidatorsLoop 0 cmm.Members []), ?_, ?_, ?_, ?_⟩
  · simp only [MakeValidators, hid, hlen, if_false]
  · simp [NewValidatorSet, makeValidatorsLoop_eq]
  · intro i hi
    simp [NewValidatorSet, makeValidatorsLoop_eq, List.getElem?_map, List.getElem?_eq_getElem hi]
  · intro v hv
    simp only [NewValidatorSet, makeValidatorsLoop_eq, List.nil_append, List.mem_map] at hv
    obtain ⟨m, -, rfl⟩ := hv
    rfl

/-- Witness for C7: a committee of three members. -/
theorem MakeValidators_size_order_power_witness :
    ∃ vs : ValidatorSet,
      MakeValidators
        { Id := some 7, StartHeight := 1,
          Members := [{ Publickey := { X := 5, Y := 6 } }, { Publickey := { X := 1, Y := 2 } },
                      { Publickey := { X := 3, Y := 4 } }] } = some vs ∧
      vs.Validators.length = 3 ∧
      vs.Validators[0]? = some { PubKey := { X := 5, Y := 6 }, VotingPower := 1 } ∧
      vs.Validators[2]? = some { PubKey := { X := 3, Y := 4 }, VotingPower := 1 } := by
  obtain ⟨vs, h1, h2, h3, -⟩ :=
    MakeValidators_size_order_power
      { Id := some 7, StartHeight := 1,
        Members := [{ Publickey := { X := 5, Y := 6 } }, { Publickey := { X := 1, Y := 2 } },
                    { Publickey := { X := 3, Y := 4 } }] } 7 rfl (by decide)
  exact ⟨vs, h1, h2, h3 0 (by decide), h3 2 (by decide)⟩

/-! ## The connect-pass -/

theorem updateNodesLoop_eq (c : Collaborators) (table : List (ID × nodeInfo)) :
    updateNodesLoop c table
      = (table.map (afterPass c),
         (table.filter fun e => e.2.Enable = false).map Prod.fst) := by
  induction table with
  | nil => rfl
  | cons e rest ih =>
    obtain ⟨k, v⟩ := e
    obtain ⟨vid, vaddr, vip, vport, ven⟩ := v
    cases ven with
    | true => simp [updateNodesLoop, ih, afterPass]
    | false =>
      cases hd : c.Dial { ID := vid, Adrress := vaddr, IP := vip, Port := vport,
                          Enable := false } with
      | none => simp [updateNodesLoop, ih, afterPass, service.connTo, hd]
      | some err => simp [updateNodesLoop, ih, afterPass, service.connTo, hd]

/-- The connect-pass on a service whose mutex, peer table and switch are all
in place (a state neither constructor of the file produces): it returns, dials exactly the entries that were not connected, once
each and in table order, and leaves the table with the same keys and entries
except that an entry is connected afterwards exactly when it was connected
before or its dial succeeded; the next pass (whatever its dial outcomes) dials
exactly the entries that were not connected and whose dial failed. -/
theorem updateNodes_on_allocated_service (c : Collaborators) (s : service)
    (table : List (ID × nodeInfo)) (sw : Switch)
    (hlock : s.lock = true) (htab : s.nodeTable = some table) (hsw : s.sw = some sw) :
    ∃ table' : List (ID × nodeInfo),
      service.updateNodes c s
        = Outcome.ret none ({ s with nodeTable := some table' },
            (table.filter fun e => e.2.Enable = false).map Prod.fst) ∧
      table'.length = table.length ∧
      mapKeys table' = mapKeys table ∧
      (∀ i (hi : i < table.length),
        ∃ e', table'[i]? = some e' ∧
          e'.1 = (table.get ⟨i, hi⟩).1 ∧
          e'.2.ID = (table.get ⟨i, hi⟩).2.ID ∧
          e'.2.Adrress = (table.get ⟨i, hi⟩).2.Adrress ∧
          e'.2.IP = (table.get ⟨i, hi⟩).2.IP ∧
          e'.2.Port = (table.get ⟨i, hi⟩).2.Port ∧
          (e'.2.Enable = true ↔
            (table.get ⟨i, hi⟩).2.Enable = true ∨ c.Dial (table.get ⟨i, hi⟩).2 = none)) ∧
      (∀ c2 : Collaborators, ∃ s2 : service,
        service.updateNodes c2 { s with nodeTable := some table' }
          = Outcome.ret none (s2,
              (table.filter fun e => e.2.Enable = false ∧ c.Dial e.2 ≠ none).map Prod.fst)) := by
  refine ⟨table.map (afterPass c), ?_, ?_, ?_, ?_, ?_⟩
  · simp only [service.updateNodes, hlock, htab, hsw, updateNodesLoop_eq]
    simp
  · simp
  · simp [mapKeys, List.map_map, Function.comp_def, afterPass]
  · intro i hi
    refine ⟨afterPass c (table.get ⟨i, hi⟩), ?_, rfl, rfl, rfl, rfl, rfl, ?_⟩
    · simp [List.getElem?_map, List.getElem?_eq_getElem hi]
    · simp [afterPass, Option.isNone_iff_eq_none]
  · intro c2
    refine ⟨{ s with nodeTable := some ((table.map (afterPass c)).map (afterPass c2)) }, ?_⟩
    simp only [service.updateNodes, hlock, hsw, updateNodesLoop_eq]
    simp [List.filter_map, List.map_map, Function.comp_def, afterPass,
      Option.isNone_iff_eq_none]
    congr 1
    apply List.filter_congr
    intro x _
    cases c.Dial x.2 <;> simp

/-! ## Peer insertion -/

theorem mapKeys_append {κ ν : Type} (m m2 : List (κ × ν)) :
    mapKeys (m ++ m2) = mapKeys m ++ mapKeys m2 := by
  simp [mapKeys]

theorem firstCandidate_cons_ne (c : Collaborators) (node : CommitteeNode)
    (rest : List CommitteeNode) (id : ID) (h : derivedID c node ≠ some id) :
    firstCandidate c (node :: rest) id = firstCandidate c rest id := by
  simp [firstCandidate, List.find?, h]

theorem firstCandidate_cons_eq (c : Collaborators) (node : CommitteeNode)
    (rest : List CommitteeNode) (id : ID) (h : derivedID c node = some id) :
    firstCandidate c (node :: rest) id = some node := by
  simp [firstCandidate, List.find?, h]

/-- When every candidate that parses is already in the table, the loop
changes neither the table nor the flag. -/
theorem putNodesLoop_fixed (c : Collaborators) (L : List CommitteeNode)
    (t : List (ID × nodeInfo)) (u : Bool)
    (h : ∀ node ∈ L, ∀ id, derivedID c node = some id → mapGet t id ≠ none) :
    putNodesLoop c L t u = (t, u) := by
  induction L with
  | nil => rfl
  | cons node rest ih =>
    have hrest : ∀ node ∈ rest, ∀ id, derivedID c node = some id → mapGet t id ≠ none :=
      fun nd hnd => h nd (List.mem_cons_of_mem _ hnd)
    cases hp : c.UnmarshalPubkey node.Publickey with
    | none => simp [putNodesLoop, hp, ih hrest]
    | some pub =>
      have hd : derivedID c node = some (hexEncodeToString (c.PubkeyToAddress pub)) := by
        simp [derivedID, hp]
      cases hg : mapGet t (hexEncodeToString (c.PubkeyToAddress pub)) with
      | none => exact absurd hg (h node (List.mem_cons_self _ _) _ hd)
      | some e => simp [putNodesLoop, hp, hg, ih hrest]

/-- The flag only goes up. -/
theorem putNodesLoop_flag_true (c : Collaborators) (L : List CommitteeNode)
    (t : List (ID × nodeInfo)) : (putNodesLoop c L t true).2 = true := by
  induction L generalizing t with
  | nil => rfl
  | cons node rest ih =>
    cases hp : c.UnmarshalPubkey node.Publickey with
    | none => simp [putNodesLoop, hp, ih]
    | some pub =>
      cases hg : mapGet t (hexEncodeToString (c.PubkeyToAddress pub)) with
      | none => simp [putNodesLoop, hp, hg, ih]
      | some e => simp [putNodesLoop, hp, hg, ih]

/-- The table does not depend on the incoming flag. -/
theorem putNodesLoop_table_flag (c : Collaborators) (L : List CommitteeNode)
    (t : List (ID × nodeInfo)) (u u2 : Bool) :
    (putNodesLoop c L t u).1 = (putNodesLoop c L t u2).1 := by
  induction L generalizing t u u2 with
  | nil => rfl
  | cons node rest ih =>
    cases hp : c.UnmarshalPubkey node.Publickey with
    | none => simpa [putNodesLoop, hp] using ih t u u2
    | some pub =>
      cases hg : mapGet t (hexEncodeToString (c.PubkeyToAddress pub)) with
      | none => simp [putNodesLoop, hp, hg]
      | some e => simpa [putNodesLoop, hp, hg] using ih t u u2

/-- The shape of the table after the loop: the old table followed by the new
entries, one per identifier that was absent and is derived by some candidate,
each built from the first candidate deriving it; the flag is raised exactly
when there is a new entry. -/
theorem putNodesLoop_shape (c : Collaborators) (L : List CommitteeNode)
    (t : List (ID × nodeInfo)) :
    ∃ news : List (ID × nodeInfo),
      (putNodesLoop c L t false).1 = t ++ news ∧
      ((putNodesLoop c L t false).2 = true ↔ news ≠ []) ∧
      (mapKeys news).Nodup ∧
      (∀ id, id ∈ mapKeys news ↔
        mapGet t id = none ∧ ∃ node ∈ L, derivedID c node = some id) ∧
      (∀ id e, (id, e) ∈ news →
        ∃ node, firstCandidate c L id = some node ∧ e = newNodeInfo c id node) := by
  induction L generalizing t with
  | nil => exact ⟨[], by simp [putNodesLoop], by simp [putNodesLoop], by simp [mapKeys],
      by simp [mapKeys], by simp⟩
  | cons node rest ih =>
    cases hp : c.UnmarshalPubkey node.Publickey with
    | none =>
      have hd : derivedID c node = none := by simp [derivedID, hp]
      obtain ⟨news, h1, h2, h3, h4, h5⟩ := ih t
      refine ⟨news, ?_, ?_, h3, ?_, ?_⟩
      · simpa [putNodesLoop, hp] using h1
      · simpa [putNodesLoop, hp] using h2
      · intro id
        rw [h4 id]
        simp [hd]
      · intro id e he
        rw [firstCandidate_cons_ne c node rest id (by simp [hd])]
        exact h5 id e he
    | some pub =>
      obtain ⟨id0, hid0⟩ : ∃ id0, hexEncodeToString (c.PubkeyToAddress pub) = id0 := ⟨_, rfl⟩
      have hd : derivedID c node = some id0 := by simp [derivedID, hp, hid0]
      cases hg : mapGet t id0 with
      | some e0 =>
        obtain ⟨news, h1, h2, h3, h4, h5⟩ := ih t
        have hloop : putNodesLoop c (node :: rest) t false = putNodesLoop c rest t false := by
          simp [putNodesLoop, hp, hid0, hg]
        refine ⟨news, ?_, ?_, h3, ?_, ?_⟩
        · rw [hloop]; exact h1
        · rw [hloop]; exact h2
        · intro id
          rw [h4 id]
          constructor
          · rintro ⟨ha, nd, hnd, hdn⟩
            exact ⟨ha, nd, List.mem_cons_of_mem _ hnd, hdn⟩
          · rintro ⟨ha, nd, hnd, hdn⟩
            refine ⟨ha, ?_⟩
            rcases List.mem_cons.mp hnd with rfl | hnd
            · rw [hd] at hdn
              cases hdn
              rw [hg] at ha
              cases ha
            · exact ⟨nd, hnd, hdn⟩
        · intro id e he
          have hmem : id ∈ mapKeys news := List.mem_map.mpr ⟨(id, e), he, rfl⟩
          have hne : derivedID c node ≠ some id := by
            intro hcon
            rw [hd] at hcon
            cases hcon
            have := ((h4 id0).mp hmem).1
            rw [hg] at this
            cases this
          rw [firstCandidate_cons_ne c node rest id hne]
          exact h5 id e he
      | none =>
        obtain ⟨news, h1, h2, h3, h4, h5⟩ := ih (mapSet t id0 (newNodeInfo c id0 node))
        have hset : mapSet t id0 (newNodeInfo c id0 node) = t ++ [(id0, newNodeInfo c id0 node)] :=
          mapSet_absent _ _ _ hg
        have hloop : (putNodesLoop c (node :: rest) t false)
            = putNodesLoop c rest (mapSet t id0 (newNodeInfo c id0 node)) true := by
          simp [putNodesLoop, hp, hid0, hg]
        have hnot : id0 ∉ mapKeys news := by
          intro hmem
          have := ((h4 id0).mp hmem).1
          rw [mapGet_mapSet_self] at this
          cases this
        refine ⟨(id0, newNodeInfo c id0 node) :: news, ?_, ?_, ?_, ?_, ?_⟩
        · rw [hloop, putNodesLoop_table_flag c rest _ true false, h1, hset]
          simp
        · rw [hloop, putNodesLoop_flag_true]
          simp
        · simp only [mapKeys, List.map_cons, List.nodup_cons]
          exact ⟨hnot, h3⟩
        · intro id
          rw [show mapKeys ((id0, newNodeInfo c id0 node) :: news) = id0 :: mapKeys news from rfl,
            List.mem_cons]
          by_cases hid : id = id0
          · subst hid
            constructor
            · intro _
              exact ⟨hg, node, List.mem_cons_self _ _, hd⟩
            · intro _
              exact Or.inl rfl
          · rw [h4 id, mapGet_mapSet_ne _ _ _ _ hid]
            constructor
            · rintro (h | ⟨ha, nd, hnd, hdn⟩)
              · exact absurd h hid
              · exact ⟨ha, nd, List.mem_cons_of_mem _ hnd, hdn⟩
            · rintro ⟨ha, nd, hnd, hdn⟩
              refine Or.inr ⟨ha, ?_⟩
              rcases List.mem_cons.mp hnd with rfl | hnd
              · rw [hd] at hdn
                cases hdn
                exact absurd rfl hid
              · exact ⟨nd, hnd, hdn⟩
        · intro id e he
          rcases List.mem_cons.mp he with heq | he
          · cases heq
            exact ⟨node, firstCandidate_cons_eq c node rest id0 hd, rfl⟩
          · have hmem : id ∈ mapKeys news := List.mem_map.mpr ⟨(id, e), he, rfl⟩
            have hne : derivedID c node ≠ some id := by
              intro hcon
              rw [hd] at hcon
              cases hcon
              exact hnot hmem
            rw [firstCandidate_cons_ne c node rest id hne]
            exact h5 id e he

theorem putNodesLoop_present (c : Collaborators) (L : List CommitteeNode)
    (t : List (ID × nodeInfo)) (node : CommitteeNode) (hn : node ∈ L) (id : ID)
    (hd : derivedID c node = some id) : mapGet (putNodesLoop c L t false).1 id ≠ none := by
  obtain ⟨news, h1, -, -, h4, -⟩ := putNodesLoop_shape c L t
  rw [h1, mapGet_append]
  cases hg : mapGet t id with
  | some e => simp
  | none =>
    have hmem : id ∈ mapKeys news := (h4 id).mpr ⟨hg, node, hn, hd⟩
    have : mapGet news id ≠ none := fun h => (mapGet_none_iff news id).mp h hmem
    simpa using this

/-- Idempotence of `putNodes` on a service whose mutex and peer table are in
place, as `NewNodeService` allocates them: the call returns, and a second `putNodes` with the same list returns and leaves the
service exactly as the first call left it: the same peer table (so the same
size) and the same number of dispatcher signals, none raised by the second
call. -/
theorem putNodes_twice_on_allocated_service (c : Collaborators) (s : service)
    (table : List (ID × nodeInfo)) (L : Option (List CommitteeNode))
    (hlock : s.lock = true) (htab : s.nodeTable = some table) :
    ∃ s1 s2 : service,
      service.putNodes c s L = Outcome.ret none s1 ∧
      service.putNodes c s1 L = Outcome.ret none s2 ∧
      s2.nodeTable = s1.nodeTable ∧
      s2.signals = s1.signals ∧
      s2 = s1 := by
  cases L with
  | none => exact ⟨s, s, rfl, rfl, rfl, rfl, rfl⟩
  | some ns =>
    have hfix : putNodesLoop c ns (putNodesLoop c ns table false).1 false
        = ((putNodesLoop c ns table false).1, false) :=
      putNodesLoop_fixed c ns _ false
        (fun node hn id hd => putNodesLoop_present c ns table node hn id hd)
    let s1 : service :=
      { s with nodeTable := some (putNodesLoop c ns table false).1,
               signals := if (putNodesLoop c ns table false).2 = true then s.signals + 1
                          else s.signals }
    have h1 : service.putNodes c s (some ns) = Outcome.ret none s1 := by
      simp [service.putNodes, hlock, htab, s1]
    have h2 : service.putNodes c s1 (some ns) = Outcome.ret none s1 := by
      simp [service.putNodes, hlock, s1, hfix]
    exact ⟨s1, s1, h1, h2, rfl, rfl, rfl⟩

/-- Example of the idempotence on an allocated service: two calls with a list holding a new peer, a known peer and
a malformed candidate. -/
theorem putNodes_twice_on_allocated_service_example :
    ∃ s1 s2 : service,
      service.putNodes demo (tableService [knownPeer])
        (some [peer 3 4 "10.0.0.3" 30305, peer 1 2 "10.0.0.1" 30303, badPeer])
        = Outcome.ret none s1 ∧
      service.putNodes demo s1
        (some [peer 3 4 "10.0.0.3" 30305, peer 1 2 "10.0.0.1" 30303, badPeer])
        = Outcome.ret none s2 ∧
      s2.nodeTable = s1.nodeTable ∧
      s2.signals = s1.signals ∧
      s2 = s1 :=
  putNodes_twice_on_allocated_service demo (tableService [knownPeer]) [knownPeer]
    (some [peer 3 4 "10.0.0.3" 30305, peer 1 2 "10.0.0.1" 30303, badPeer]) rfl rfl

/-- The table after `putNodes` on a service whose mutex and peer table are in
place, as `NewNodeService` allocates them: the call returns and the table afterwards is the old table, every entry untouched,
followed by new entries: exactly one for each identifier that was absent and
is derived from the public key of some candidate that parses, built from the
first such candidate in list order (its IP and port, `Enable` false).  Keys
that were distinct stay distinct. -/
theorem putNodes_on_allocated_service (c : Collaborators) (s : service)
    (table : List (ID × nodeInfo)) (L : List CommitteeNode)
    (hlock : s.lock = true) (htab : s.nodeTable = some table) :
    ∃ (s' : service) (news : List (ID × nodeInfo)),
      service.putNodes c s (some L) = Outcome.ret none s' ∧
      s'.nodeTable = some (table ++ news) ∧
      (∀ id e, mapGet table id = some e → mapGet (table ++ news) id = some e) ∧
      (mapKeys news).Nodup ∧
      (∀ id, id ∈ mapKeys news ↔
        mapGet table id = none ∧ ∃ node ∈ L, derivedID c node = some id) ∧
      (∀ id e, (id, e) ∈ news →
        ∃ node, firstCandidate c L id = some node ∧
          e.ID = id ∧ e.Adrress = c.NewNetAddress id node.IP node.Port ∧
          e.IP = node.IP ∧ e.Port = node.Port ∧ e.Enable = false) ∧
      ((mapKeys table).Nodup → (mapKeys (table ++ news)).Nodup) := by
  obtain ⟨news, h1, -, h3, h4, h5⟩ := putNodesLoop_shape c L table
  refine ⟨{ s with nodeTable := some (putNodesLoop c L table false).1,
                   signals := if (putNodesLoop c L table false).2 = true then s.signals + 1
                              else s.signals }, news, ?_, ?_, ?_, h3, h4, ?_, ?_⟩
  · simp [service.putNodes, hlock, htab]
  · simp [h1]
  · intro id e he
    simp [mapGet_append, he]
  · intro id e he
    obtain ⟨node, hf, rfl⟩ := h5 id e he
    exact ⟨node, hf, rfl, rfl, rfl, rfl, rfl⟩
  · intro hnd
    rw [mapKeys_append]
    refine List.nodup_append.mpr ⟨hnd, h3, ?_⟩
    intro id hid hid2
    exact (mapGet_none_iff table id).mp ((h4 id).mp hid2).1 hid

/-- Example of the insertion on an allocated service: the table knows peer (1,2); the list re-announces it
under another address, holds a malformed candidate, and names peer (3,4)
twice.  The table gains one entry, for (3,4) with the first announced
address. -/
theorem putNodes_on_allocated_service_example :
    (∃ (s' : service) (news : List (ID × nodeInfo)),
      service.putNodes demo (tableService [knownPeer])
        (some [peer 1 2 "10.9.9.9" 1, badPeer, peer 3 4 "10.0.0.3" 30305,
               peer 3 4 "10.0.0.4" 30306]) = Outcome.ret none s' ∧
      s'.nodeTable = some ([knownPeer] ++ news) ∧
      (mapKeys news).Nodup) ∧
    service.putNodes demo (tableService [knownPeer])
        (some [peer 1 2 "10.9.9.9" 1, badPeer, peer 3 4 "10.0.0.3" 30305,
               peer 3 4 "10.0.0.4" 30306])
      = Outcome.ret none
          { tableService
              [knownPeer,
               ("0304", { ID := "0304",
                          Adrress := some { ID := "0304", IP := "10.0.0.3", Port := 30305 },
                          IP := "10.0.0.3", Port := 30305, Enable := false })]
            with signals := 1 } := by
  refine ⟨?_, by decide⟩
  obtain ⟨s', news, h1, h2, -, h4, -⟩ :=
    putNodes_on_allocated_service demo (tableService [knownPeer]) [knownPeer]
      [peer 1 2 "10.9.9.9" 1, badPeer, peer 3 4 "10.0.0.3" 30305, peer 3 4 "10.0.0.4" 30306]
      rfl rfl
  exact ⟨s', news, h1, h2, h4⟩

/-- Example of the connect-pass on an allocated service: a table with a connected peer, a pending peer whose dial
succeeds (even port) and one whose dial fails (odd port). -/
theorem updateNodes_on_allocated_service_example :
    (∃ table' : List (ID × nodeInfo),
      service.updateNodes demo
          (tableService [knownPeer, pendingPeer "0304" 30304, pendingPeer "0506" 30305])
        = Outcome.ret none
            ({ tableService [knownPeer, pendingPeer "0304" 30304, pendingPeer "0506" 30305]
               with nodeTable := some table' },
             ([knownPeer, pendingPeer "0304" 30304, pendingPeer "0506" 30305].filter
               fun e => e.2.Enable = false).map Prod.fst) ∧
      table'.length = 3) ∧
    service.updateNodes demo
        (tableService [knownPeer, pendingPeer "0304" 30304, pendingPeer "0506" 30305])
      = Outcome.ret none
          (tableService
            [knownPeer, ("0304", { (pendingPeer "0304" 30304).2 with Enable := true }),
             pendingPeer "0506" 30305],
           ["0304", "0506"]) := by
  refine ⟨?_, by decide⟩
  obtain ⟨table', h1, h2, -⟩ :=
    updateNodes_on_allocated_service demo
      (tableService [knownPeer, pendingPeer "0304" 30304, pendingPeer "0506" 30305])
      [knownPeer, pendingPeer "0304" 30304, pendingPeer "0506" 30305]
      { listeners := 0, reactors := [], addrBookSet := false, nodeInfoSet := false,
        nodeKeySet := false, running := false } rfl rfl rfl
  exact ⟨table', h1, h2⟩

/-! ## Peer table and dispatcher of a registered committee -/

/-- The service `PutCommittee` registers has no mutex, no peer table and no
channel, whatever the state agent; `NewNodeService`, which allocates all
three, is not used by it. -/
theorem committeeService_unallocated (state : StateAgentImpl) :
    (committeeService state).lock = false ∧
    (committeeService state).nodeTable = none ∧
    (committeeService state).updateChan = false ∧
    NewNodeService.lock = true ∧
    NewNodeService.nodeTable = some [] ∧
    NewNodeService.updateChan = true :=
  ⟨rfl, rfl, rfl, rfl, rfl, rfl⟩

/-- C5 (the code departs from the claim).  On the service `PutCommittee`
registers, `putNodes` with any non-nil list panics at the nil mutex, so there
is no table after one call, let alone an equal one after two:
`PutNodes(7, [peer])` on the node holding committee 7 panics.  On the service
`NewNodeService` builds, two calls with the same list leave the same table and
the second raises no signal. -/
theorem putNodes_first_call_panics_on_registered_committee :
    (∀ (c : Collaborators) (state : StateAgentImpl) (L : List CommitteeNode),
      service.putNodes c (committeeService state) (some L) = Outcome.panic) ∧
    Node.PutCommittee demo (NewNode "true") (committee 7 100) = Outcome.ret none node7 ∧
    Node.PutNodes demo node7 (some 7) (some [peer 3 4 "10.0.0.3" 30305]) = Outcome.panic ∧
    service.putNodes demo NewNodeService (some [peer 3 4 "10.0.0.3" 30305])
      = Outcome.ret none
          { NewNodeService with
            nodeTable := some [("0304", newNodeInfo demo "0304" (peer 3 4 "10.0.0.3" 30305))],
            signals := 1 } ∧
    service.putNodes demo
        { NewNodeService with
          nodeTable := some [("0304", newNodeInfo demo "0304" (peer 3 4 "10.0.0.3" 30305))],
          signals := 1 }
        (some [peer 3 4 "10.0.0.3" 30305])
      = Outcome.ret none
          { NewNodeService with
            nodeTable := some [("0304", newNodeInfo demo "0304" (peer 3 4 "10.0.0.3" 30305))],
            signals := 1 } := by
  refine ⟨fun c state L => ?_, by decide, by decide, by decide, by decide⟩
  simp [service.putNodes, committeeService]

/-- C6 (the code departs from the claim).  The scenario of the claim, the
same public key twice in one call for committee 7: `PutNodes(7, [peerX,
peerX])` on the node holding committee 7 panics at the nil mutex and the
committee has no peer table to gain an entry, while the same list on the
service `NewNodeService` builds yields exactly one entry, with the first
announced address and `Enable` false. -/
theorem putNodes_same_key_twice_panics_on_registered_committee :
    Node.PutCommittee demo (NewNode "true") (committee 7 100) = Outcome.ret none node7 ∧
    (mapGet node7.services 7).map (fun s => (s.lock, s.nodeTable)) = some (false, none) ∧
    Node.PutNodes demo node7 (some 7)
        (some [peer 1 2 "10.0.0.1" 30303, peer 1 2 "10.0.0.2" 30304]) = Outcome.panic ∧
    service.putNodes demo NewNodeService
        (some [peer 1 2 "10.0.0.1" 30303, peer 1 2 "10.0.0.2" 30304])
      = Outcome.ret none
          { NewNodeService with
            nodeTable :=
              some [("0102", { ID := "0102",
                               Adrress := some { ID := "0102", IP := "10.0.0.1", Port := 30303 },
                               IP := "10.0.0.1", Port := 30303, Enable := false })],
            signals := 1 } := by
  refine ⟨by decide, by decide, by decide, by decide⟩

/-- C9 (the code departs from the claim).  On the service `PutCommittee`
registers, a connect-pass panics at the nil mutex before it reads the table,
and the dispatcher loop never runs one, its receive on the nil channel
blocking forever; this is still so after `Notify(7, Start)` has spawned the
loop.  On the service `NewNodeService` builds, a pass over a table with a
pending peer panics at the nil switch.  No service the file constructs
completes a pass that dials a peer. -/
theorem updateNodes_panics_on_registered_committee :
    (∀ (c : Collaborators) (state : StateAgentImpl),
      service.updateNodes c (committeeService state) = Outcome.panic) ∧
    (∀ (c : Collaborators) (state : StateAgentImpl) (update : Bool),
      service.dispatcherStep c (committeeService state) update = Outcome.blocked) ∧
    (((Node.Notify demo node7 (some 7) Start).state.bind fun n => mapGet n.services 7).map
      fun s => (s.workers, s.updateChan, s.lock, s.nodeTable)) = some (1, false, false, none) ∧
    (((Node.Notify demo node7 (some 7) Start).state.bind fun n => mapGet n.services 7).map
      fun s => service.updateNodes demo s) = some Outcome.panic ∧
    (((Node.Notify demo node7 (some 7) Start).state.bind fun n => mapGet n.services 7).map
      fun s => service.dispatcherStep demo s true) = some Outcome.blocked ∧
    ((service.putNodes demo NewNodeService (some [peer 3 4 "10.0.0.3" 30305])).state.map
      fun s => service.updateNodes demo s) = some Outcome.panic := by
  refine ⟨fun c state => ?_, fun c state update => ?_, rfl, by decide, by decide,
    by decide⟩
  · simp [service.updateNodes, committeeService]
  · simp [service.dispatcherStep, committeeService]

end Tbft
